import Mathlib

/-!
Shallow embedding of the voice-transcription subsystem of CipherTalk
(`VoiceTranscribeService`): model catalog, config lookup, filesystem-level
model status, download orchestration with single-flight de-duplication and
failure cleanup, redirect-bounded file download, the transcript cache, and
the worker dispatch protocol.

The filesystem is modelled as an association list from path to byte size;
the configuration accessor (an external collaborator) as a record of the
keys the service reads; the HTTP layer as a function from URL to response.
-/

namespace CipherTalk

/-- Model type: `type ModelType = 'int8' | 'float32'`. -/
inductive ModelType where
  | int8
  | float32
deriving DecidableEq, Repr

/-- Descriptor `interface ModelInfo` -- per-variant descriptor: display name, the two
required file names, expected total byte size and a human-readable label. -/
structure ModelInfo where
  name : String
  filesModel : String
  filesTokens : String
  sizeBytes : Nat
  sizeLabel : String
deriving DecidableEq, Repr

/-- Catalog `SENSEVOICE_MODELS`: the static catalog of the two variants. -/
def SENSEVOICE_MODELS : ModelType → ModelInfo
  | .int8 =>
    { name := "SenseVoice (int8 量化版)"
      filesModel := "model.int8.onnx"
      filesTokens := "tokens.txt"
      sizeBytes := 235000000
      sizeLabel := "235 MB" }
  | .float32 =>
    { name := "SenseVoice (float32 完整版)"
      filesModel := "model.onnx"
      filesTokens := "tokens.txt"
      sizeBytes := 920000000
      sizeLabel := "920 MB" }

/-- Mapping `MODEL_DOWNLOAD_URLS`: per-variant `(model, tokens)` download URLs. -/
def MODEL_DOWNLOAD_URLS : ModelType → String × String
  | .int8 =>
    ("https://modelscope.cn/models/pengzhendong/sherpa-onnx-sense-voice-zh-en-ja-ko-yue/resolve/master/model.int8.onnx",
     "https://modelscope.cn/models/pengzhendong/sherpa-onnx-sense-voice-zh-en-ja-ko-yue/resolve/master/tokens.txt")
  | .float32 =>
    ("https://modelscope.cn/models/pengzhendong/sherpa-onnx-sense-voice-zh-en-ja-ko-yue/resolve/master/model.onnx",
     "https://modelscope.cn/models/pengzhendong/sherpa-onnx-sense-voice-zh-en-ja-ko-yue/resolve/master/tokens.txt")

/-- The configuration keys the service reads through `ConfigService`
(an external collaborator).  `sttModelType` is `none` when unset. -/
structure Config where
  sttModelType : Option ModelType
  sttLanguages : List String
deriving DecidableEq, Repr

/-- Accessor `getCurrentModelType`: `this.configService.get('sttModelType') || 'int8'`. -/
def getCurrentModelType (cfg : Config) : ModelType :=
  cfg.sttModelType.getD .int8

/-- Accessor `getCurrentModel`: `SENSEVOICE_MODELS[this.getCurrentModelType()]`. -/
def getCurrentModel (cfg : Config) : ModelInfo :=
  SENSEVOICE_MODELS (getCurrentModelType cfg)

/-- Accessor `getCurrentModelUrls`: `MODEL_DOWNLOAD_URLS[this.getCurrentModelType()]`. -/
def getCurrentModelUrls (cfg : Config) : String × String :=
  MODEL_DOWNLOAD_URLS (getCurrentModelType cfg)

/-- The filesystem, as an association list from path to file byte size. -/
abbrev FS := List (String × Nat)

/-- First value stored under a key in an association list. -/
def alookup : List (String × Nat) → String → Option Nat
  | [], _ => none
  | (k, v) :: t, q => if k = q then some v else alookup t q

/-- Remove every element whose key (under the projection `key`) equals `p`. -/
def eraseBy (key : α → String) : List α → String → List α
  | [], _ => []
  | a :: t, p => if key a = p then eraseBy key t p else a :: eraseBy key t p

/-- Presence check `existsSync(path)`. -/
def existsSync (fs : FS) (p : String) : Bool :=
  (alookup fs p).isSome

/-- Size check `statSync(path).size`; `0` for a path that is not present. -/
def statSize (fs : FS) (p : String) : Nat :=
  (alookup fs p).getD 0

/-- Writing a file: any previous entry for the path is replaced. -/
def fsWrite (fs : FS) (p : String) (size : Nat) : FS :=
  (p, size) :: eraseBy Prod.fst fs p

/-- Deletion `unlinkSync(path)` (removing an absent path is a no-op here; the source
guards each `unlinkSync` with `existsSync`). -/
def unlinkSync (fs : FS) (p : String) : FS :=
  eraseBy Prod.fst fs p

/-- Directory `resolveModelDir`: `join(app.getPath('appData'), 'ciphertalk', 'models',
'sensevoice')`, with the Electron appData root as a parameter. -/
def resolveModelDir (appData : String) : String :=
  appData ++ "/ciphertalk/models/sensevoice"

/-- Path `resolveModelPath(fileName)`: `join(this.resolveModelDir(), fileName)`. -/
def resolveModelPath (appData : String) (fileName : String) : String :=
  resolveModelDir appData ++ "/" ++ fileName

/-- Result shape of `getModelStatus`. -/
structure ModelStatusResult where
  success : Bool
  exists? : Option Bool
  modelPath : Option String
  tokensPath : Option String
  sizeBytes : Option Nat
  error : Option String
deriving DecidableEq, Repr

/-- Status `getModelStatus`: checks presence of both files of the current variant
and, when both exist, reports their combined size. -/
def getModelStatus (appData : String) (cfg : Config) (fs : FS) : ModelStatusResult :=
  let currentModel := getCurrentModel cfg
  let modelPath := resolveModelPath appData currentModel.filesModel
  let tokensPath := resolveModelPath appData currentModel.filesTokens
  let modelExists := existsSync fs modelPath
  let tokensExists := existsSync fs tokensPath
  if modelExists && tokensExists then
    { success := true, exists? := some true
      modelPath := some modelPath, tokensPath := some tokensPath
      sizeBytes := some (statSize fs modelPath + statSize fs tokensPath)
      error := none }
  else
    { success := true, exists? := some false
      modelPath := some modelPath, tokensPath := some tokensPath
      sizeBytes := none, error := none }

/-- A row of the `transcript_cache` table (`cache_key` is the primary key). -/
structure CacheRow where
  cache_key : String
  session_id : String
  create_time : Int
  transcript : String
  created_at : Nat
deriving DecidableEq, Repr

/-- The cache database handle: `none` models `cacheDb = null` (init failed,
cache disabled); `some rows` models the table contents. -/
abbrev CacheDb := Option (List CacheRow)

/-- Key derivation `getCacheKey(sessionId, createTime)`: the string `sessionId:createTime`. -/
def getCacheKey (sessionId : String) (createTime : Int) : String :=
  sessionId ++ ":" ++ toString createTime

/-- Point query `SELECT ... WHERE cache_key = ?` on the primary key. -/
def findRow (rows : List CacheRow) (k : String) : Option CacheRow :=
  rows.find? (fun r => r.cache_key = k)

/-- Lookup `getCachedTranscript(sessionId, createTime)`: `null` when the cache is
disabled or the key is absent, the stored transcript otherwise. -/
def getCachedTranscript (db : CacheDb) (sessionId : String) (createTime : Int) :
    Option String :=
  match db with
  | none => none
  | some rows => (findRow rows (getCacheKey sessionId createTime)).map (·.transcript)

/-- Upsert `saveTranscriptCache(sessionId, createTime, transcript)`: no-op when the
cache is disabled or the transcript is empty (`!transcript`); otherwise
`INSERT OR REPLACE` keyed on `cache_key` (`now` models `Date.now()`). -/
def saveTranscriptCache (now : Nat) (db : CacheDb) (sessionId : String)
    (createTime : Int) (transcript : String) : CacheDb :=
  match db with
  | none => none
  | some rows =>
    if transcript = "" then some rows
    else
      let k := getCacheKey sessionId createTime
      some ({ cache_key := k, session_id := sessionId, create_time := createTime
              transcript := transcript, created_at := now }
            :: eraseBy CacheRow.cache_key rows k)

/-- Number of rows stored under a given primary key. -/
def countRows (rows : List CacheRow) (k : String) : Nat :=
  (rows.filter (fun r => r.cache_key = k)).length

/-- JavaScript truthiness of a `string | null` value: non-null and non-empty. -/
def optStrTruthy : Option String → Bool
  | none => false
  | some s => s ≠ ""

/-- Result shape of `transcribeWavBuffer`. -/
structure TranscribeResult where
  success : Bool
  transcript : Option String
  error : Option String
deriving DecidableEq, Repr

/-- Result shape of `transcribeWithCache` (the `cached` flag is set on every
return path of the source). -/
structure TranscribeWithCacheResult where
  success : Bool
  transcript : Option String
  error : Option String
  cached : Bool
deriving DecidableEq, Repr

/-- Cache-aware transcription `transcribeWithCache(wavData, sessionId, createTime, onPartial, force)`.
The dispatch (`await this.transcribeWavBuffer(...)`) is abstracted by its
result `dispatchResult`; the returned triple is (result, cache state after
the call, whether the dispatcher was invoked). -/
def transcribeWithCache (now : Nat) (db : CacheDb) (sessionId : String)
    (createTime : Int) (force : Bool) (dispatchResult : TranscribeResult) :
    TranscribeWithCacheResult × CacheDb × Bool :=
  let dispatchBranch : TranscribeWithCacheResult × CacheDb × Bool :=
    let result := dispatchResult
    let db2 :=
      if result.success && optStrTruthy result.transcript then
        saveTranscriptCache now db sessionId createTime (result.transcript.getD "")
      else db
    ({ success := result.success, transcript := result.transcript
       error := result.error, cached := false }, db2, true)
  if force then dispatchBranch
  else
    let cached := getCachedTranscript db sessionId createTime
    if optStrTruthy cached then
      ({ success := true, transcript := cached, error := none, cached := true },
       db, false)
    else dispatchBranch

/-! ### Downloader (`downloadToFile`) -/

/-- An HTTP response as discriminated by `downloadToFile`: a 3xx status with
a `Location` header, a 200 with an optional nonzero `content-length` and a
body (abstracted to its byte size), or any other status code. -/
inductive HttpResponse where
  | redirect (location : String)
  | ok (contentLength : Option Nat) (size : Nat)
  | status (code : Nat)
deriving DecidableEq, Repr

/-- Downloader `downloadToFile(url, targetPath, fileName, onProgress, remainingRedirects)`:
follows a 3xx `Location` while the redirect budget lasts, rejects with
`重定向次数过多` once it is exhausted, rejects on a non-200 status, and on 200
streams the body into `targetPath`.  The network is a function from URL to
response; the streamed body is abstracted to its total size. -/
def downloadToFile (server : String → HttpResponse) (targetPath : String)
    (fs : FS) : String → Nat → Except String FS
  | url, remainingRedirects =>
    match server url with
    | .redirect location =>
      match remainingRedirects with
      | 0 => .error "重定向次数过多"
      | n + 1 => downloadToFile server targetPath fs location n
    | .ok _ size => .ok (fsWrite fs targetPath size)
    | .status code => .error ("下载失败: HTTP " ++ toString code)

/-- A server that answers every URL with a redirect. -/
def alwaysRedirect : String → HttpResponse :=
  fun u => .redirect (u ++ "r")

/-- A server that redirects exactly `k` times (URLs grow by one character per
hop, starting from the empty URL) and then serves the file. -/
def chainServer (k : Nat) : String → HttpResponse :=
  fun u => if u.length < k then .redirect (u ++ "r") else .ok (some 10) 10

/-! ### Model acquisition (`downloadModel`) -/

/-- Result shape of `downloadModel`. -/
structure DownloadModelResult where
  success : Bool
  modelPath : Option String
  tokensPath : Option String
  error : Option String
deriving DecidableEq, Repr

/-- Outcome of one `downloadToFile` transfer inside `downloadModel`: success
writes the file; failure rejects, possibly leaving a partially written file
(the Downloader does not clean up). -/
inductive TransferOutcome where
  | ok (size : Nat)
  | err (partialSize : Option Nat) (msg : String)
deriving DecidableEq, Repr

/-- Effect of one transfer on the filesystem, plus the rejection message if
the transfer failed. -/
def applyTransfer (fs : FS) (p : String) : TransferOutcome → FS × Option String
  | .ok size => (fsWrite fs p size, none)
  | .err partialSize msg =>
    (match partialSize with
     | some size => fsWrite fs p size
     | none => fs,
     some msg)

/-- Guarded delete `if (existsSync(p)) unlinkSync(p)`. -/
def unlinkIfExists (fs : FS) (p : String) : FS :=
  if existsSync fs p then unlinkSync fs p else fs

/-- The catch clause of `downloadModel`: delete the model file and the tokens
file if present. -/
def cleanupModelFiles (fs : FS) (modelPath tokensPath : String) : FS :=
  unlinkIfExists (unlinkIfExists fs modelPath) tokensPath

/-- The body of the `downloadModel` task: download the model file, then the
tokens file (the two transfers are abstracted by their outcomes `o1`, `o2`);
on success return both paths; on any failure run the catch clause and return
the error. -/
def downloadModelRun (appData : String) (cfg : Config) (fs : FS)
    (o1 o2 : TransferOutcome) : DownloadModelResult × FS :=
  let currentModel := getCurrentModel cfg
  let modelPath := resolveModelPath appData currentModel.filesModel
  let tokensPath := resolveModelPath appData currentModel.filesTokens
  match applyTransfer fs modelPath o1 with
  | (fs1, some e) =>
    ({ success := false, modelPath := none, tokensPath := none, error := some e },
     cleanupModelFiles fs1 modelPath tokensPath)
  | (fs1, none) =>
    match applyTransfer fs1 tokensPath o2 with
    | (fs2, some e) =>
      ({ success := false, modelPath := none, tokensPath := none, error := some e },
       cleanupModelFiles fs2 modelPath tokensPath)
    | (fs2, none) =>
      ({ success := true, modelPath := some modelPath, tokensPath := some tokensPath
         error := none }, fs2)

/-- State of the in-flight download registry `downloadTasks`; task ids stand
for the promises, `startedTasks` records every start of the underlying
transfer routine. -/
structure DownloadTasksState where
  downloadTasks : List (String × Nat)
  startedTasks : List Nat
  nextTaskId : Nat
deriving DecidableEq, Repr

/-- Registry state at service construction: empty map. -/
def initTasksState : DownloadTasksState :=
  { downloadTasks := [], startedTasks := [], nextTaskId := 0 }

/-- The de-duplication prologue of `downloadModel`: a pending entry for the
key `sensevoice` is returned as-is; otherwise a fresh task is started and
registered (`Map.set`).  Returns the task handed to the caller. -/
def downloadModelCall (s : DownloadTasksState) : Nat × DownloadTasksState :=
  match alookup s.downloadTasks "sensevoice" with
  | some pending => (pending, s)
  | none =>
    (s.nextTaskId,
     { downloadTasks :=
         ("sensevoice", s.nextTaskId) :: eraseBy Prod.fst s.downloadTasks "sensevoice"
       startedTasks := s.startedTasks ++ [s.nextTaskId]
       nextTaskId := s.nextTaskId + 1 })

/-- How a registered download task ends: normal return with success or
failure, or an exception escaping the task body. -/
inductive TaskOutcome where
  | succeeded
  | failed
  | threw
deriving DecidableEq, Repr

/-- The `finally` clause of the `downloadModel` task: the registry entry is
deleted whatever the outcome. -/
def downloadModelFinish (s : DownloadTasksState) (_outcome : TaskOutcome) :
    DownloadTasksState :=
  { s with downloadTasks := eraseBy Prod.fst s.downloadTasks "sensevoice" }

/-- An event on the in-flight registry. -/
inductive DownloadEvent where
  | call
  | finish (outcome : TaskOutcome)
deriving DecidableEq, Repr

/-- Apply one registry event to the state. -/
def stepDownloadEvent (s : DownloadTasksState) : DownloadEvent → DownloadTasksState
  | .call => (downloadModelCall s).2
  | .finish o => downloadModelFinish s o

/-- Run a sequence of registry events from the initial state. -/
def runDownloadEvents (evs : List DownloadEvent) : DownloadTasksState :=
  evs.foldl stepDownloadEvent initTasksState

/-! ### Download progress mapping -/

/-- Progress record `DownloadProgress` as emitted to the `onProgress` callback; `percent`
uses ℚ (the JS number arithmetic involved is exact). -/
structure DownloadProgressR where
  modelName : String
  downloadedBytes : Nat
  totalBytes : Option Nat
  percent : Option ℚ
deriving DecidableEq, Repr

/-- The progress closure of the first (weights) transfer:
`percent = total ? (downloaded / total) * 60 : undefined`, with
`downloadedBytes = downloaded` and `totalBytes = currentModel.sizeBytes`
(a zero `total` is falsy in JS, like an absent one). -/
def modelPhaseProgress (currentModel : ModelInfo) (downloaded : Nat)
    (total : Option Nat) : DownloadProgressR :=
  { modelName := currentModel.name
    downloadedBytes := downloaded
    totalBytes := some currentModel.sizeBytes
    percent :=
      match total with
      | some t => if t = 0 then none else some (((downloaded : ℚ) / t) * 60)
      | none => none }

/-- The progress closure of the second (tokens) transfer:
`percent = total ? 60 + (downloaded / total) * 40 : 60`, with
`downloadedBytes = modelSize + downloaded` (`modelSize` is the weights file
size on disk, 0 if absent) and `totalBytes = currentModel.sizeBytes`. -/
def tokensPhaseProgress (currentModel : ModelInfo) (modelSize : Nat)
    (downloaded : Nat) (total : Option Nat) : DownloadProgressR :=
  { modelName := currentModel.name
    downloadedBytes := modelSize + downloaded
    totalBytes := some currentModel.sizeBytes
    percent :=
      match total with
      | some t => if t = 0 then some 60 else some (60 + ((downloaded : ℚ) / t) * 40)
      | none => some 60 }

/-! ### Transcription dispatch (`transcribeWavBuffer`) -/

/-- Outcome of the precondition phase of `transcribeWavBuffer`: either an
immediate resolution without spawning a worker, or the spawn of a worker
with its `workerData`. -/
inductive TranscribePre where
  | failNoWorker (error : String)
  | spawnWorker (modelPath tokensPath workerPath : String) (language : String)
      (allowedLanguages : List String)
deriving DecidableEq, Repr

/-- The precondition phase of `transcribeWavBuffer`: model file, tokens file
and worker script must all exist before a worker is spawned; `dirname`
models `__dirname`. -/
def transcribeWavBufferPre (appData dirname : String) (cfg : Config) (fs : FS) :
    TranscribePre :=
  let currentModel := getCurrentModel cfg
  let modelPath := resolveModelPath appData currentModel.filesModel
  let tokensPath := resolveModelPath appData currentModel.filesTokens
  if !existsSync fs modelPath then
    .failNoWorker "模型文件不存在，请先下载模型"
  else if !existsSync fs tokensPath then
    .failNoWorker "Tokens 文件不存在，请先下载模型"
  else
    let workerPath := dirname ++ "/transcribeWorker.js"
    if !existsSync fs workerPath then
      .failNoWorker ("Worker 文件不存在: " ++ workerPath)
    else
      let sttLanguages := cfg.sttLanguages
      let language :=
        if sttLanguages.length = 1 then sttLanguages.headD ""
        else if sttLanguages.length > 1 then "" else "zh"
      .spawnWorker modelPath tokensPath workerPath language sttLanguages

/-- Whether the precondition phase spawned a worker. -/
def workerSpawned : TranscribePre → Bool
  | .failNoWorker _ => false
  | .spawnWorker .. => true

/-- The immediate resolution of the precondition phase, when it fails fast. -/
def transcribePreResult : TranscribePre → Option TranscribeResult
  | .failNoWorker e => some { success := false, transcript := none, error := some e }
  | .spawnWorker .. => none

/-- A signal observed by the dispatcher after the worker is spawned: a
message of one of the three protocol kinds, the worker's own fault event,
or its exit event with a code. -/
inductive WorkerSignal where
  | partialMsg (text : String)
  | finalMsg (text : String)
  | errorMsg (error : String)
  | workerFault (err : String)
  | workerExit (code : Int)
deriving DecidableEq, Repr

/-- The value a single signal passes to `resolve`, if any: `partial`
messages and a clean exit resolve nothing; `final`, `error`, fault and
nonzero exit are terminal. -/
def signalResolution : WorkerSignal → Option TranscribeResult
  | .partialMsg _ => none
  | .finalMsg t => some { success := true, transcript := some t, error := none }
  | .errorMsg e => some { success := false, transcript := none, error := some e }
  | .workerFault e => some { success := false, transcript := none, error := some e }
  | .workerExit c =>
    if c ≠ 0 then
      some { success := false, transcript := none
             error := some ("Worker 异常退出，代码: " ++ toString c) }
    else none

/-- A JS promise settles only once: fold the signal sequence keeping the
first resolution, later `resolve` calls being no-ops. -/
def runWorkerSignals (sigs : List WorkerSignal) : Option TranscribeResult :=
  sigs.foldl
    (fun acc s =>
      match acc with
      | some r => some r
      | none => signalResolution s)
    none

/-! ### clearModel -/

/-- File list `filesToClean` of `clearModel`: all known model files of both variants,
independent of the configured variant. -/
def clearModelFiles : List String :=
  [(SENSEVOICE_MODELS .int8).filesModel,
   (SENSEVOICE_MODELS .int8).filesTokens,
   (SENSEVOICE_MODELS .float32).filesModel]

/-- Cleaner `clearModel`: delete every known model file that exists (directory
removal is not modelled; the filesystem holds only files). -/
def clearModel (appData : String) (fs : FS) : FS :=
  clearModelFiles.foldl
    (fun f n =>
      let p := resolveModelPath appData n
      if existsSync f p then unlinkSync f p else f)
    fs

/-! ### Write sequences against the transcript cache -/

/-- A sequence of `saveTranscriptCache` calls for one `(sessionId,
createTime)` pair, each with its transcript and its `Date.now()` value. -/
def saveSeq (sessionId : String) (createTime : Int) (ws : List (String × Nat))
    (db : CacheDb) : CacheDb :=
  ws.foldl (fun d w => saveTranscriptCache w.2 d sessionId createTime w.1) db

/-- The last write of the sequence whose transcript is non-empty. -/
def lastNonEmptyWriteP (ws : List (String × Nat)) : Option (String × Nat) :=
  (ws.filter (fun w => w.1 ≠ "")).getLast?

/-- The table contents produced by a single-key write sequence from an empty
table: no row if every write was empty, else exactly the row of the last
non-empty write. -/
def rowsOfLast (sessionId : String) (createTime : Int) :
    Option (String × Nat) → List CacheRow
  | none => []
  | some (w, now) =>
    [{ cache_key := getCacheKey sessionId createTime, session_id := sessionId
       create_time := createTime, transcript := w, created_at := now }]

/-! ## Helper lemmas -/

theorem alookup_eraseBy_ne (fs : FS) (p q : String) (h : q ≠ p) :
    alookup (eraseBy Prod.fst fs p) q = alookup fs q := by
  induction fs with
  | nil => rfl
  | cons a t ih =>
    have hpq : ¬ p = q := fun he => h he.symm
    by_cases hk : a.1 = p
    · have hq : ¬ a.1 = q := fun he => h (he ▸ hk)
      simp [eraseBy, hk, alookup, hq, hpq, ih]
    · by_cases hq : a.1 = q
      · simp [eraseBy, hk, alookup, hq, h, ih]
      · simp [eraseBy, hk, alookup, hq, ih]

theorem alookup_eraseBy_self (fs : FS) (p : String) :
    alookup (eraseBy Prod.fst fs p) p = none := by
  induction fs with
  | nil => rfl
  | cons a t ih =>
    by_cases hk : a.1 = p
    · simp [eraseBy, hk, ih]
    · simp [eraseBy, hk, alookup, ih]

theorem existsSync_fsWrite_self (fs : FS) (p : String) (s : Nat) :
    existsSync (fsWrite fs p s) p = true := by
  simp [existsSync, fsWrite, alookup]

theorem existsSync_fsWrite_other (fs : FS) (p q : String) (s : Nat) (h : q ≠ p) :
    existsSync (fsWrite fs p s) q = existsSync fs q := by
  have hp : ¬ p = q := fun he => h he.symm
  simp [existsSync, fsWrite, alookup, hp, alookup_eraseBy_ne fs p q h]

theorem existsSync_unlink_self (fs : FS) (p : String) :
    existsSync (unlinkSync fs p) p = false := by
  simp [existsSync, unlinkSync, alookup_eraseBy_self fs p]

theorem existsSync_unlink_other (fs : FS) (p q : String) (h : q ≠ p) :
    existsSync (unlinkSync fs p) q = existsSync fs q := by
  simp [unlinkSync, existsSync, alookup_eraseBy_ne fs p q h]

theorem downloadToFile_chain_isOk (tp : String) (fs : FS) :
    ∀ (n : Nat) (url : String) (k : Nat),
      (downloadToFile (chainServer k) tp fs url n).isOk = true ↔ k ≤ url.length + n := by
  intro n
  induction n with
  | zero =>
    intro url k
    rw [downloadToFile]
    by_cases hlt : url.length < k <;>
      simp [chainServer, hlt, Except.isOk, Except.toBool] <;> omega
  | succ m ih =>
    intro url k
    rw [downloadToFile]
    by_cases hlt : url.length < k
    · simp only [chainServer, hlt, if_pos]
      rw [ih, String.length_append]
      have hr : ("r" : String).length = 1 := rfl
      rw [hr]
      omega
    · simp [chainServer, hlt, Except.isOk, Except.toBool] <;> omega

/-- Claim C4: on a 3xx response with a `Location` header the Downloader follows
the redirect with a decremented budget; with the budget exhausted it fails
with the too-many-redirects error; a server that always redirects fails for
every budget; and with the default budget 5 a chain of `k` redirects
succeeds exactly when `k ≤ 5`, i.e. the default call fails after exactly 5
followed hops. -/
theorem downloadToFile_redirect_budget (fs : FS) (tp : String) :
    (∀ (server : String → HttpResponse) (url location : String) (n : Nat),
      server url = .redirect location →
      downloadToFile server tp fs url (n + 1) = downloadToFile server tp fs location n) ∧
    (∀ (server : String → HttpResponse) (url location : String),
      server url = .redirect location →
      downloadToFile server tp fs url 0 = .error "重定向次数过多") ∧
    (∀ (url : String) (n : Nat),
      downloadToFile alwaysRedirect tp fs url n = .error "重定向次数过多") ∧
    (∀ k : Nat, (downloadToFile (chainServer k) tp fs "" 5).isOk = true ↔ k ≤ 5) := by
  refine ⟨?_, ?_, ?_, ?_⟩
  · intro server url location n h
    rw [downloadToFile, h]
  · intro server url location h
    rw [downloadToFile, h]
  · intro url n
    induction n generalizing url with
    | zero => rw [downloadToFile]; rfl
    | succ m ih =>
      rw [downloadToFile]
      exact ih (url ++ "r")
  · intro k
    rw [downloadToFile_chain_isOk]
    simp

theorem downloadToFile_redirect_budget_witness :
    downloadToFile alwaysRedirect "t" [] "u" 3 = downloadToFile alwaysRedirect "t" [] "ur" 2 :=
  (downloadToFile_redirect_budget [] "t").1 alwaysRedirect "u" "ur" 2 rfl

/-- Claim C10: with the `sttModelType` configuration key unset, every operation
uses the `int8` variant: its file names, its expected size, its URLs; model
status, download and the transcription precondition behave exactly as with
`int8` selected explicitly (the `clearModel` file list is independent of the
configured variant altogether). -/
theorem unsetModelType_defaults_int8 :
    ∀ (ls : List String) (appData dirname : String) (fs : FS)
      (o1 o2 : TransferOutcome),
      getCurrentModelType { sttModelType := none, sttLanguages := ls } = .int8 ∧
      (getCurrentModel { sttModelType := none, sttLanguages := ls }).filesModel =
        "model.int8.onnx" ∧
      (getCurrentModel { sttModelType := none, sttLanguages := ls }).filesTokens =
        "tokens.txt" ∧
      (getCurrentModel { sttModelType := none, sttLanguages := ls }).sizeBytes =
        235000000 ∧
      getCurrentModelUrls { sttModelType := none, sttLanguages := ls } =
        MODEL_DOWNLOAD_URLS .int8 ∧
      getModelStatus appData { sttModelType := none, sttLanguages := ls } fs =
        getModelStatus appData { sttModelType := some .int8, sttLanguages := ls } fs ∧
      downloadModelRun appData { sttModelType := none, sttLanguages := ls } fs o1 o2 =
        downloadModelRun appData { sttModelType := some .int8, sttLanguages := ls } fs o1 o2 ∧
      transcribeWavBufferPre appData dirname { sttModelType := none, sttLanguages := ls } fs =
        transcribeWavBufferPre appData dirname { sttModelType := some .int8, sttLanguages := ls } fs :=
  fun _ _ _ _ _ _ => ⟨rfl, rfl, rfl, rfl, rfl, rfl, rfl, rfl⟩

theorem existsSync_unlinkIfExists_self (fs : FS) (p : String) :
    existsSync (unlinkIfExists fs p) p = false := by
  unfold unlinkIfExists
  by_cases h : existsSync fs p = true
  · simp [h, existsSync_unlink_self]
  · simp at h
    simp [h]

theorem existsSync_unlinkIfExists_other (fs : FS) (p q : String) (h : q ≠ p) :
    existsSync (unlinkIfExists fs p) q = existsSync fs q := by
  unfold unlinkIfExists
  by_cases hp : existsSync fs p = true
  · simp [hp, existsSync_unlink_other fs p q h]
  · simp at hp
    simp [hp]

theorem cleanupModelFiles_removes (fs : FS) (mp tp : String) :
    existsSync (cleanupModelFiles fs mp tp) mp = false ∧
    existsSync (cleanupModelFiles fs mp tp) tp = false := by
  unfold cleanupModelFiles
  refine ⟨?_, existsSync_unlinkIfExists_self _ tp⟩
  by_cases he : mp = tp
  · subst he
    exact existsSync_unlinkIfExists_self _ mp
  · rw [existsSync_unlinkIfExists_other _ tp mp he]
    exact existsSync_unlinkIfExists_self fs mp

/-- Claim C2: `downloadModel` is atomic on the filesystem: when it returns success
both target files exist; when either transfer fails (each may leave a
partial file behind) the catch clause removes both files, so on any failure
result neither target file exists. -/
theorem downloadModel_atomic :
    ∀ (appData : String) (cfg : Config) (fs : FS) (o1 o2 : TransferOutcome),
      ((downloadModelRun appData cfg fs o1 o2).1.success = true →
        existsSync (downloadModelRun appData cfg fs o1 o2).2
          (resolveModelPath appData (getCurrentModel cfg).filesModel) = true ∧
        existsSync (downloadModelRun appData cfg fs o1 o2).2
          (resolveModelPath appData (getCurrentModel cfg).filesTokens) = true) ∧
      ((downloadModelRun appData cfg fs o1 o2).1.success = false →
        existsSync (downloadModelRun appData cfg fs o1 o2).2
          (resolveModelPath appData (getCurrentModel cfg).filesModel) = false ∧
        existsSync (downloadModelRun appData cfg fs o1 o2).2
          (resolveModelPath appData (getCurrentModel cfg).filesTokens) = false) := by
  intro appData cfg fs o1 o2
  rcases o1 with s1 | ⟨ps1, m1⟩
  · rcases o2 with s2 | ⟨ps2, m2⟩
    · constructor
      · intro _
        constructor
        · by_cases he :
            resolveModelPath appData (getCurrentModel cfg).filesModel =
              resolveModelPath appData (getCurrentModel cfg).filesTokens
          · simp only [downloadModelRun, applyTransfer, he]
            exact existsSync_fsWrite_self _ _ s2
          · simp only [downloadModelRun, applyTransfer]
            rw [existsSync_fsWrite_other _ _ _ s2 he]
            exact existsSync_fsWrite_self fs _ s1
        · simp only [downloadModelRun, applyTransfer]
          exact existsSync_fsWrite_self _ _ s2
      · intro hfalse
        simp [downloadModelRun, applyTransfer] at hfalse
    · constructor
      · intro htrue
        simp [downloadModelRun, applyTransfer] at htrue
      · intro _
        simp only [downloadModelRun, applyTransfer]
        exact cleanupModelFiles_removes _ _ _
  · constructor
    · intro htrue
      simp [downloadModelRun, applyTransfer] at htrue
    · intro _
      simp only [downloadModelRun, applyTransfer]
      exact cleanupModelFiles_removes _ _ _

theorem downloadModel_atomic_witness :
    existsSync
      (downloadModelRun "A" { sttModelType := none, sttLanguages := [] } []
        (.ok 7) (.err (some 3) "network down")).2
      (resolveModelPath "A"
        (getCurrentModel { sttModelType := none, sttLanguages := [] }).filesModel) = false ∧
    existsSync
      (downloadModelRun "A" { sttModelType := none, sttLanguages := [] } []
        (.ok 7) (.err (some 3) "network down")).2
      (resolveModelPath "A"
        (getCurrentModel { sttModelType := none, sttLanguages := [] }).filesTokens) = false :=
  (downloadModel_atomic "A" { sttModelType := none, sttLanguages := [] } []
    (.ok 7) (.err (some 3) "network down")).2 rfl

theorem eraseBy_subset {α : Type} (key : α → String) (l : List α) (p : String) :
    ∀ x ∈ eraseBy key l p, x ∈ l := by
  induction l with
  | nil => intro x hx; exact absurd hx (by simp [eraseBy])
  | cons a t ih =>
    intro x hx
    by_cases hk : key a = p
    · simp only [eraseBy, if_pos hk] at hx
      exact List.mem_cons_of_mem a (ih x hx)
    · simp only [eraseBy, if_neg hk, List.mem_cons] at hx
      rcases hx with hx | hx
      · exact hx ▸ List.mem_cons_self a t
      · exact List.mem_cons_of_mem a (ih x hx)

theorem eraseBy_length_le {α : Type} (key : α → String) (l : List α) (p : String) :
    (eraseBy key l p).length ≤ l.length := by
  induction l with
  | nil => simp [eraseBy]
  | cons a t ih =>
    by_cases hk : key a = p
    · simp only [eraseBy, if_pos hk, List.length_cons]
      omega
    · simp only [eraseBy, if_neg hk, List.length_cons]
      omega

theorem alookup_none_of_all_key (l : List (String × Nat))
    (h1 : ∀ x ∈ l, x.1 = "sensevoice")
    (h2 : alookup l "sensevoice" = none) : l = [] := by
  cases l with
  | nil => rfl
  | cons a t =>
    have ha : a.1 = "sensevoice" := h1 a (List.mem_cons_self a t)
    rcases a with ⟨k, v⟩
    simp only [alookup] at h2
    rw [if_pos ha] at h2
    exact absurd h2 (by simp)

theorem stepDownloadEvent_inv (s : DownloadTasksState) (e : DownloadEvent)
    (h1 : ∀ x ∈ s.downloadTasks, x.1 = "sensevoice")
    (h2 : s.downloadTasks.length ≤ 1) :
    (∀ x ∈ (stepDownloadEvent s e).downloadTasks, x.1 = "sensevoice") ∧
    (stepDownloadEvent s e).downloadTasks.length ≤ 1 := by
  cases e with
  | call =>
    show (∀ x ∈ (downloadModelCall s).2.downloadTasks, x.1 = "sensevoice") ∧
      (downloadModelCall s).2.downloadTasks.length ≤ 1
    unfold downloadModelCall
    cases hl : alookup s.downloadTasks "sensevoice" with
    | some pending => exact ⟨h1, h2⟩
    | none =>
      have hnil : s.downloadTasks = [] := alookup_none_of_all_key _ h1 hl
      simp [hnil, eraseBy]
  | finish o =>
    show (∀ x ∈ (downloadModelFinish s o).downloadTasks, x.1 = "sensevoice") ∧
      (downloadModelFinish s o).downloadTasks.length ≤ 1
    unfold downloadModelFinish
    refine ⟨?_, ?_⟩
    · intro x hx
      exact h1 x (eraseBy_subset _ _ _ x hx)
    · exact le_trans (eraseBy_length_le _ _ _) h2

theorem runDownloadEvents_at_most_one (evs : List DownloadEvent) :
    (∀ x ∈ (runDownloadEvents evs).downloadTasks, x.1 = "sensevoice") ∧
    (runDownloadEvents evs).downloadTasks.length ≤ 1 := by
  suffices h : ∀ (l : List DownloadEvent) (s : DownloadTasksState),
      (∀ x ∈ s.downloadTasks, x.1 = "sensevoice") → s.downloadTasks.length ≤ 1 →
      (∀ x ∈ (l.foldl stepDownloadEvent s).downloadTasks, x.1 = "sensevoice") ∧
      (l.foldl stepDownloadEvent s).downloadTasks.length ≤ 1 by
    exact h evs initTasksState (by simp [initTasksState]) (by simp [initTasksState])
  intro l
  induction l with
  | nil => intro s hs1 hs2; exact ⟨hs1, hs2⟩
  | cons e t ih =>
    intro s hs1 hs2
    have hstep := stepDownloadEvent_inv s e hs1 hs2
    exact ih (stepDownloadEvent s e) hstep.1 hstep.2

/-- Claim C3: `downloadModel` is single-flight.  A call that finds a pending entry
returns that same task with no state change (no new transfer starts); a call
on an empty registry starts and registers exactly one fresh transfer; the
`finally` clause removes the entry whatever the outcome; a second call
issued while the first is in flight shares its task; the registry never
holds more than one entry; and after a finish, a new call starts a fresh
transfer. -/
theorem downloadModel_single_flight :
    (∀ (s : DownloadTasksState) (t : Nat),
      alookup s.downloadTasks "sensevoice" = some t →
      downloadModelCall s = (t, s)) ∧
    (∀ (s : DownloadTasksState),
      alookup s.downloadTasks "sensevoice" = none →
      (downloadModelCall s).2.startedTasks =
        s.startedTasks ++ [(downloadModelCall s).1]) ∧
    (∀ (s : DownloadTasksState) (o : TaskOutcome),
      alookup (downloadModelFinish s o).downloadTasks "sensevoice" = none ∧
      (downloadModelFinish s o).startedTasks = s.startedTasks) ∧
    (∀ s : DownloadTasksState,
      (downloadModelCall (downloadModelCall s).2).1 = (downloadModelCall s).1 ∧
      (downloadModelCall (downloadModelCall s).2).2 = (downloadModelCall s).2) ∧
    (∀ (s : DownloadTasksState) (o : TaskOutcome),
      (downloadModelCall (downloadModelFinish (downloadModelCall s).2 o)).2.startedTasks.length =
        (downloadModelCall s).2.startedTasks.length + 1) ∧
    (∀ evs : List DownloadEvent,
      (runDownloadEvents evs).downloadTasks.length ≤ 1) := by
  have hpend : ∀ (s : DownloadTasksState) (t : Nat),
      alookup s.downloadTasks "sensevoice" = some t →
      downloadModelCall s = (t, s) := by
    intro s t h
    unfold downloadModelCall
    rw [h]
  have hfresh : ∀ (s : DownloadTasksState),
      alookup s.downloadTasks "sensevoice" = none →
      (downloadModelCall s).2.startedTasks =
        s.startedTasks ++ [(downloadModelCall s).1] := by
    intro s h
    unfold downloadModelCall
    rw [h]
  have hfin : ∀ (s : DownloadTasksState) (o : TaskOutcome),
      alookup (downloadModelFinish s o).downloadTasks "sensevoice" = none ∧
      (downloadModelFinish s o).startedTasks = s.startedTasks := by
    intro s o
    exact ⟨alookup_eraseBy_self _ _, rfl⟩
  have hcall2 : ∀ s : DownloadTasksState,
      (downloadModelCall (downloadModelCall s).2).1 = (downloadModelCall s).1 ∧
      (downloadModelCall (downloadModelCall s).2).2 = (downloadModelCall s).2 := by
    intro s
    cases hl : alookup s.downloadTasks "sensevoice" with
    | some t => simp [hpend s t hl]
    | none =>
      have hs2 : alookup (downloadModelCall s).2.downloadTasks "sensevoice" =
          some (downloadModelCall s).1 := by
        unfold downloadModelCall
        rw [hl]
        simp [alookup]
      simp [hpend _ _ hs2]
  have hlen : ∀ (s : DownloadTasksState) (o : TaskOutcome),
      (downloadModelCall (downloadModelFinish (downloadModelCall s).2 o)).2.startedTasks.length =
        (downloadModelCall s).2.startedTasks.length + 1 := by
    intro s o
    have h1 := (hfin (downloadModelCall s).2 o).1
    have h2 := hfresh _ h1
    rw [h2, (hfin (downloadModelCall s).2 o).2]
    simp
  exact ⟨hpend, hfresh, hfin, hcall2, hlen,
    fun evs => (runDownloadEvents_at_most_one evs).2⟩

theorem downloadModel_single_flight_witness :
    downloadModelCall
      { downloadTasks := [("sensevoice", 4)], startedTasks := [4], nextTaskId := 5 } =
      (4, { downloadTasks := [("sensevoice", 4)], startedTasks := [4], nextTaskId := 5 }) :=
  downloadModel_single_flight.1
    { downloadTasks := [("sensevoice", 4)], startedTasks := [4], nextTaskId := 5 } 4 rfl

theorem saveSeq_append (s : String) (t : Int) (ws : List (String × Nat))
    (x : String × Nat) (db : CacheDb) :
    saveSeq s t (ws ++ [x]) db =
      saveTranscriptCache x.2 (saveSeq s t ws db) s t x.1 := by
  simp [saveSeq, List.foldl_append]

theorem lastNonEmptyWriteP_append (ws : List (String × Nat)) (x : String × Nat) :
    lastNonEmptyWriteP (ws ++ [x]) =
      if x.1 = "" then lastNonEmptyWriteP ws else some x := by
  unfold lastNonEmptyWriteP
  rw [List.filter_append]
  by_cases hx : x.1 = ""
  · simp [hx]
  · simp [hx, List.getLast?_concat]

theorem saveSeq_from_empty (s : String) (t : Int) (ws : List (String × Nat)) :
    saveSeq s t ws (some []) = some (rowsOfLast s t (lastNonEmptyWriteP ws)) := by
  induction ws using List.reverseRecOn with
  | nil => rfl
  | append_singleton ws x ih =>
    rcases x with ⟨w, now⟩
    rw [saveSeq_append, ih, lastNonEmptyWriteP_append]
    by_cases hw : w = ""
    · simp [hw, saveTranscriptCache]
    · simp only [hw, if_neg, ite_false]
      cases hl : lastNonEmptyWriteP ws with
      | none => simp [saveTranscriptCache, hw, rowsOfLast, eraseBy]
      | some y =>
        rcases y with ⟨w', now'⟩
        simp [saveTranscriptCache, hw, rowsOfLast, eraseBy]

/-- Claim C8: a sequence of `saveTranscriptCache` calls for one `(sessionId,
createTime)` pair leaves the table with exactly the row of the last
non-empty write (no row if all writes were empty): writes are upserts keyed
by the derived cache key, at most one row per key ever exists, the lookup
returns the last non-empty transcript, and in particular writing `"A"` then
`"B"` leaves one row holding `"B"`. -/
theorem saveTranscriptCache_upsert :
    ∀ (s : String) (t : Int) (ws : List (String × Nat)),
      saveSeq s t ws (some []) = some (rowsOfLast s t (lastNonEmptyWriteP ws)) ∧
      (∀ k, countRows (rowsOfLast s t (lastNonEmptyWriteP ws)) k ≤ 1) ∧
      getCachedTranscript (saveSeq s t ws (some [])) s t =
        (lastNonEmptyWriteP ws).map Prod.fst ∧
      saveSeq "s1" 1000 [("A", 1), ("B", 2)] (some []) =
        some [{ cache_key := "s1:1000", session_id := "s1", create_time := 1000
                transcript := "B", created_at := 2 }] := by
  intro s t ws
  refine ⟨saveSeq_from_empty s t ws, ?_, ?_, ?_⟩
  · intro k
    cases hl : lastNonEmptyWriteP ws with
    | none => simp [rowsOfLast, countRows]
    | some y =>
      rcases y with ⟨w, now⟩
      have := List.length_filter_le (fun r : CacheRow => decide (r.cache_key = k))
        [{ cache_key := getCacheKey s t, session_id := s, create_time := t
           transcript := w, created_at := now }]
      simpa [rowsOfLast, countRows] using this
  · rw [saveSeq_from_empty]
    cases hl : lastNonEmptyWriteP ws with
    | none => simp [rowsOfLast, getCachedTranscript, findRow]
    | some y =>
      rcases y with ⟨w, now⟩
      simp [rowsOfLast, getCachedTranscript, findRow, List.find?]
  · rfl

/-- Claim C1: `transcribeWithCache` with `force = false` on a cache hit with a
non-empty transcript returns `{success: true, cached: true}` with the cached
text, leaves the cache unchanged and never invokes the dispatcher; with
`force = true` the cache lookup is skipped, the dispatcher is always
invoked, and the returned result carries `cached: false`. -/
theorem transcribeWithCache_cache_contract :
    ∀ (now : Nat) (db : CacheDb) (s : String) (t : Int) (r : TranscribeResult)
      (c : String),
      (getCachedTranscript db s t = some c → c ≠ "" →
        transcribeWithCache now db s t false r =
          ({ success := true, transcript := some c, error := none, cached := true },
           db, false)) ∧
      ((transcribeWithCache now db s t true r).2.2 = true ∧
       (transcribeWithCache now db s t true r).1.cached = false) := by
  intro now db s t r c
  constructor
  · intro hget hne
    simp [transcribeWithCache, hget, optStrTruthy, hne]
  · constructor
    · simp [transcribeWithCache]
    · simp [transcribeWithCache]

theorem transcribeWithCache_cache_contract_witness :
    transcribeWithCache 0
      (some [{ cache_key := "s1:1000", session_id := "s1", create_time := 1000
               transcript := "hello", created_at := 0 }]) "s1" 1000 false
      { success := false, transcript := none, error := some "boom" } =
      ({ success := true, transcript := some "hello", error := none, cached := true },
       some [{ cache_key := "s1:1000", session_id := "s1", create_time := 1000
               transcript := "hello", created_at := 0 }], false) :=
  (transcribeWithCache_cache_contract 0
    (some [{ cache_key := "s1:1000", session_id := "s1", create_time := 1000
             transcript := "hello", created_at := 0 }]) "s1" 1000
    { success := false, transcript := none, error := some "boom" } "hello").1
    (by decide) (by decide)

/-- Claim C5: when either required model file is absent, `transcribeWavBuffer`
resolves immediately with `success: false` and the corresponding
model-missing message, and no worker is spawned. -/
theorem transcribe_missing_model_fails_fast :
    ∀ (appData dirname : String) (cfg : Config) (fs : FS),
      (existsSync fs (resolveModelPath appData (getCurrentModel cfg).filesModel) = false →
        transcribeWavBufferPre appData dirname cfg fs =
          .failNoWorker "模型文件不存在，请先下载模型" ∧
        workerSpawned (transcribeWavBufferPre appData dirname cfg fs) = false ∧
        transcribePreResult (transcribeWavBufferPre appData dirname cfg fs) =
          some { success := false, transcript := none
                 error := some "模型文件不存在，请先下载模型" }) ∧
      (existsSync fs (resolveModelPath appData (getCurrentModel cfg).filesModel) = true →
       existsSync fs (resolveModelPath appData (getCurrentModel cfg).filesTokens) = false →
        transcribeWavBufferPre appData dirname cfg fs =
          .failNoWorker "Tokens 文件不存在，请先下载模型" ∧
        workerSpawned (transcribeWavBufferPre appData dirname cfg fs) = false ∧
        transcribePreResult (transcribeWavBufferPre appData dirname cfg fs) =
          some { success := false, transcript := none
                 error := some "Tokens 文件不存在，请先下载模型" }) := by
  intro appData dirname cfg fs
  constructor
  · intro hm
    have h : transcribeWavBufferPre appData dirname cfg fs =
        .failNoWorker "模型文件不存在，请先下载模型" := by
      simp [transcribeWavBufferPre, hm]
    exact ⟨h, by rw [h]; rfl, by rw [h]; rfl⟩
  · intro hm ht
    have h : transcribeWavBufferPre appData dirname cfg fs =
        .failNoWorker "Tokens 文件不存在，请先下载模型" := by
      simp [transcribeWavBufferPre, hm, ht]
    exact ⟨h, by rw [h]; rfl, by rw [h]; rfl⟩

theorem transcribe_missing_model_fails_fast_witness :
    transcribeWavBufferPre "A" "D" { sttModelType := none, sttLanguages := [] } [] =
      .failNoWorker "模型文件不存在，请先下载模型" ∧
    workerSpawned
      (transcribeWavBufferPre "A" "D" { sttModelType := none, sttLanguages := [] } []) = false ∧
    transcribePreResult
      (transcribeWavBufferPre "A" "D" { sttModelType := none, sttLanguages := [] } []) =
      some { success := false, transcript := none
             error := some "模型文件不存在，请先下载模型" } :=
  (transcribe_missing_model_fails_fast "A" "D"
    { sttModelType := none, sttLanguages := [] } []).1 rfl

/-- Claim C9: even with both model files present, when the worker script
(`transcribeWorker.js` next to the service module) does not exist the call
resolves with `success: false` and an error naming the worker script, and no
worker is spawned — a fail-fast precondition beyond the two model files. -/
theorem transcribe_missing_worker_file_fails_fast :
    ∀ (appData dirname : String) (cfg : Config) (fs : FS),
      existsSync fs (resolveModelPath appData (getCurrentModel cfg).filesModel) = true →
      existsSync fs (resolveModelPath appData (getCurrentModel cfg).filesTokens) = true →
      existsSync fs (dirname ++ "/transcribeWorker.js") = false →
      transcribeWavBufferPre appData dirname cfg fs =
        .failNoWorker ("Worker 文件不存在: " ++ (dirname ++ "/transcribeWorker.js")) ∧
      workerSpawned (transcribeWavBufferPre appData dirname cfg fs) = false ∧
      transcribePreResult (transcribeWavBufferPre appData dirname cfg fs) =
        some { success := false, transcript := none
               error := some ("Worker 文件不存在: " ++ (dirname ++ "/transcribeWorker.js")) } := by
  intro appData dirname cfg fs hm ht hw
  have h : transcribeWavBufferPre appData dirname cfg fs =
      .failNoWorker ("Worker 文件不存在: " ++ (dirname ++ "/transcribeWorker.js")) := by
    simp [transcribeWavBufferPre, hm, ht, hw]
  exact ⟨h, by rw [h]; rfl, by rw [h]; rfl⟩

theorem transcribe_missing_worker_file_fails_fast_witness :
    transcribeWavBufferPre "A" "D" { sttModelType := none, sttLanguages := [] }
      [("A/ciphertalk/models/sensevoice/model.int8.onnx", 7),
       ("A/ciphertalk/models/sensevoice/tokens.txt", 3)] =
      .failNoWorker ("Worker 文件不存在: " ++ ("D" ++ "/transcribeWorker.js")) ∧
    workerSpawned
      (transcribeWavBufferPre "A" "D" { sttModelType := none, sttLanguages := [] }
        [("A/ciphertalk/models/sensevoice/model.int8.onnx", 7),
         ("A/ciphertalk/models/sensevoice/tokens.txt", 3)]) = false ∧
    transcribePreResult
      (transcribeWavBufferPre "A" "D" { sttModelType := none, sttLanguages := [] }
        [("A/ciphertalk/models/sensevoice/model.int8.onnx", 7),
         ("A/ciphertalk/models/sensevoice/tokens.txt", 3)]) =
      some { success := false, transcript := none
             error := some ("Worker 文件不存在: " ++ ("D" ++ "/transcribeWorker.js")) } :=
  transcribe_missing_worker_file_fails_fast "A" "D"
    { sttModelType := none, sttLanguages := [] }
    [("A/ciphertalk/models/sensevoice/model.int8.onnx", 7),
     ("A/ciphertalk/models/sensevoice/tokens.txt", 3)]
    (by decide) (by decide) (by decide)

theorem runWorkerSignals_stay_some (l : List WorkerSignal) (r : TranscribeResult) :
    l.foldl
      (fun acc s =>
        match acc with
        | some x => some x
        | none => signalResolution s)
      (some r) = some r := by
  induction l with
  | nil => rfl
  | cons a t ih => exact ih

theorem runWorkerSignals_cons_none (a : WorkerSignal) (l : List WorkerSignal)
    (h : signalResolution a = none) :
    runWorkerSignals (a :: l) = runWorkerSignals l := by
  unfold runWorkerSignals
  rw [List.foldl_cons, h]

/-- Claim C6: the first terminal signal (final message, error message, worker
fault, or abnormal exit) determines the resolution of the transcription
promise; every later signal is ignored because the promise is already
settled; in particular a worker that emits a `final` message and then exits
with a nonzero code resolves exactly once, with the final transcript. -/
theorem transcribe_terminal_signal_exclusive :
    (∀ (pre post : List WorkerSignal) (s : WorkerSignal) (r : TranscribeResult),
      (∀ x ∈ pre, signalResolution x = none) → signalResolution s = some r →
      runWorkerSignals (pre ++ s :: post) = some r) ∧
    (∀ (sigs extra : List WorkerSignal) (r : TranscribeResult),
      runWorkerSignals sigs = some r →
      runWorkerSignals (sigs ++ extra) = some r) ∧
    runWorkerSignals [.finalMsg "hello", .workerExit 1] =
      some { success := true, transcript := some "hello", error := none } := by
  refine ⟨?_, ?_, rfl⟩
  · intro pre
    induction pre with
    | nil =>
      intro post s r _ hs
      unfold runWorkerSignals
      rw [List.nil_append, List.foldl_cons, hs]
      exact runWorkerSignals_stay_some post r
    | cons a t ih =>
      intro post s r hall hs
      rw [List.cons_append,
        runWorkerSignals_cons_none a _ (hall a (List.mem_cons_self a t))]
      exact ih post s r (fun x hx => hall x (List.mem_cons_of_mem a hx)) hs
  · intro sigs extra r h
    unfold runWorkerSignals at h ⊢
    rw [List.foldl_append, h]
    exact runWorkerSignals_stay_some extra r

theorem transcribe_terminal_signal_exclusive_witness :
    runWorkerSignals
      [.partialMsg "he", .errorMsg "decode failed", .finalMsg "late", .workerExit 1] =
      some { success := false, transcript := none, error := some "decode failed" } :=
  transcribe_terminal_signal_exclusive.1 [.partialMsg "he"]
    [.finalMsg "late", .workerExit 1] (.errorMsg "decode failed")
    { success := false, transcript := none, error := some "decode failed" }
    (by decide) (by decide)

/-- Claim C7 counterexample: in the second phase the reported percent is
`60 + (vocabDownloaded / vocabTotal) * 40`; it is insensitive to the weight
bytes already on disk and is not measured against the variant's expected
total size.  With 100 weight bytes on disk, 500 of 1000 vocabulary bytes
downloaded and expected total 235000000, the code reports 80 percent while
a percent accounting for weight plus vocabulary bytes against the expected
total would be `100·(100+500)/235000000 ≠ 80`; the reported percent is also
unchanged when the weight bytes change from 100 to 999999. -/
theorem tokensPhase_percent_counterexample :
    (tokensPhaseProgress (SENSEVOICE_MODELS .int8) 100 500 (some 1000)).percent =
      some 80 ∧
    (tokensPhaseProgress (SENSEVOICE_MODELS .int8) 999999 500 (some 1000)).percent =
      some 80 ∧
    (100 : ℚ) * ((100 : ℚ) + 500) / 235000000 ≠ 80 := by
  refine ⟨?_, ?_, by norm_num⟩
  · show some ((60 : ℚ) + ((500 : ℚ) / 1000) * 40) = some 80
    norm_num
  · show some ((60 : ℚ) + ((500 : ℚ) / 1000) * 40) = some 80
    norm_num

/-- Claim C7 (amended): the weights phase reports percent in 0–60 and the tokens
phase in 60–100 (whenever the respective content length is known and the
downloaded bytes do not exceed it); in the second phase the *percent* is
`60 + (vocabDownloaded / vocabTotal) * 40`, while it is the reported
`downloadedBytes` that accounts for the already-downloaded weight bytes
plus the current vocabulary bytes and the reported `totalBytes` that is the
variant's expected total size. -/
theorem downloadModel_progress_mapping :
    ∀ (m : ModelInfo) (ms d t : Nat), 0 < t → d ≤ t →
      (∃ p, (modelPhaseProgress m d (some t)).percent = some p ∧
        0 ≤ p ∧ p ≤ 60) ∧
      (∃ p, (tokensPhaseProgress m ms d (some t)).percent = some p ∧
        60 ≤ p ∧ p ≤ 100) ∧
      (modelPhaseProgress m d (some t)).downloadedBytes = d ∧
      (modelPhaseProgress m d (some t)).totalBytes = some m.sizeBytes ∧
      (tokensPhaseProgress m ms d (some t)).downloadedBytes = ms + d ∧
      (tokensPhaseProgress m ms d (some t)).totalBytes = some m.sizeBytes ∧
      (tokensPhaseProgress m ms d (some t)).percent =
        some (60 + ((d : ℚ) / t) * 40) := by
  intro m ms d t ht hd
  have htne : ¬ t = 0 := Nat.pos_iff_ne_zero.mp ht
  have ht' : (0 : ℚ) < (t : ℚ) := by exact_mod_cast ht
  have h0 : 0 ≤ (d : ℚ) / t := by positivity
  have h1 : (d : ℚ) / t ≤ 1 := by
    rw [div_le_one ht']
    exact_mod_cast hd
  refine ⟨⟨(d : ℚ) / t * 60, ?_, ?_, ?_⟩,
    ⟨60 + (d : ℚ) / t * 40, ?_, ?_, ?_⟩, rfl, rfl, rfl, rfl, ?_⟩
  · simp [modelPhaseProgress, htne]
  · positivity
  · nlinarith [h1]
  · simp [tokensPhaseProgress, htne]
  · nlinarith [h0]
  · nlinarith [h1]
  · simp [tokensPhaseProgress, htne]

theorem downloadModel_progress_mapping_witness :
    (∃ p, (modelPhaseProgress (SENSEVOICE_MODELS .int8) 1 (some 2)).percent = some p ∧
      0 ≤ p ∧ p ≤ 60) ∧
    (∃ p, (tokensPhaseProgress (SENSEVOICE_MODELS .int8) 0 1 (some 2)).percent = some p ∧
      60 ≤ p ∧ p ≤ 100) ∧
    (modelPhaseProgress (SENSEVOICE_MODELS .int8) 1 (some 2)).downloadedBytes = 1 ∧
    (modelPhaseProgress (SENSEVOICE_MODELS .int8) 1 (some 2)).totalBytes =
      some (SENSEVOICE_MODELS .int8).sizeBytes ∧
    (tokensPhaseProgress (SENSEVOICE_MODELS .int8) 0 1 (some 2)).downloadedBytes = 0 + 1 ∧
    (tokensPhaseProgress (SENSEVOICE_MODELS .int8) 0 1 (some 2)).totalBytes =
      some (SENSEVOICE_MODELS .int8).sizeBytes ∧
    (tokensPhaseProgress (SENSEVOICE_MODELS .int8) 0 1 (some 2)).percent =
      some (60 + ((1 : ℚ) / (2 : Nat)) * 40) :=
  downloadModel_progress_mapping (SENSEVOICE_MODELS .int8) 0 1 2
    (by decide) (by decide)

end CipherTalk
